import Mathlib

/-!
Shallow embedding of the background transcoding scheduler of
`src/server/services/transcoder.js` (Audiooook_web).

The JavaScript module keeps process-wide mutable state (the in-progress
registry, the task queue, the active-worker counter, the cancellation flag
and a rolling CPU snapshot) and runs on a single-threaded event loop, so
every synchronous run of code between two `await` points is atomic.  The
embedding makes that state explicit (`SchedState`) and models each
synchronous block of the source as a pure state-transformer.  The file
system is modelled as a map from path strings to file sizes (`FS`);
`fs.existsSync`/`statSync` become a lookup, `unlinkSync` a point deletion,
`renameSync` a move.  OS samples (CPU snapshots, memory, core count) and
the configuration file are passed in explicitly, mirroring the fact that
the source re-reads them on every call.
-/

namespace Audiobook

/-- Constant `MAX_CONCURRENCY = 10` — hard upper bound on concurrent workers. -/
def MAX_CONCURRENCY : Nat := 10

/-- Constant `SYSTEM_LOAD_LIMIT = 0.85` — CPU/memory utilisation threshold. -/
def SYSTEM_LOAD_LIMIT : ℚ := 85 / 100

/-- A cumulative CPU-time snapshot, as produced by `getCpuSnapshot()`:
total idle ticks and total ticks summed over all cores. -/
structure CpuSnapshot where
  idle : Int
  total : Int
deriving DecidableEq, Repr

/-- Source `getCpuUsage()` : computes utilisation from the delta between the stored
snapshot and the current one, and overwrites the stored snapshot.  On first
call (no stored snapshot) it falls back to `min(1, loadavg1m / coreCount)`,
passed here pre-computed as `loadEstimate`.  Returns the utilisation and the
new value of the module-level `lastCpuSnapshot`. -/
def getCpuUsage (lastCpuSnapshot : Option CpuSnapshot) (current : CpuSnapshot)
    (loadEstimate : ℚ) : ℚ × Option CpuSnapshot :=
  match lastCpuSnapshot with
  | none => (min 1 loadEstimate, some current)
  | some prev =>
    let idleDiff : Int := current.idle - prev.idle
    let totalDiff : Int := current.total - prev.total
    (if totalDiff = 0 then 0 else 1 - (idleDiff : ℚ) / (totalDiff : ℚ), some current)

/-- Source `getMemUsage()` : `(totalmem - freemem) / totalmem`. -/
def getMemUsage (totalmem freemem : Int) : ℚ :=
  ((totalmem : ℚ) - (freemem : ℚ)) / (totalmem : ℚ)

/-- Source `isSystemOverloaded()` applied to already-sampled utilisations:
true iff CPU or memory utilisation exceeds `SYSTEM_LOAD_LIMIT`. -/
def isSystemOverloadedAt (cpuUsage memUsage : ℚ) : Bool :=
  cpuUsage > SYSTEM_LOAD_LIMIT || memUsage > SYSTEM_LOAD_LIMIT

/-- A transcode task as built by the pre-transcode strategies: a source file
path plus the identity triple `(bookId, seasonId, episodeId)`. -/
structure Task where
  filePath : String
  bookId : String
  seasonId : String
  episodeId : String
deriving DecidableEq, Repr

/-- The identity triple of a task. -/
def taskTriple (t : Task) : String × String × String :=
  (t.bookId, t.seasonId, t.episodeId)

/-- The registry key used by the source for both the in-progress map and the
cache file name: the template string `bookId_seasonId_episodeId`. -/
def cacheKey (bookId seasonId episodeId : String) : String :=
  bookId ++ "_" ++ seasonId ++ "_" ++ episodeId

/-- Key of a task. -/
def taskKey (t : Task) : String :=
  cacheKey t.bookId t.seasonId t.episodeId

/-- The transcode cache directory.  The concrete value comes from
`server/utils/paths.js` (environment-dependent); no claim depends on it,
only on the path being deterministic in the triple. -/
def TRANSCODE_CACHE_DIR : String := "server/data/transcode-cache"

/-- Source `getTranscodeCachePath(bookId, seasonId, episodeId)` :
`path.join(TRANSCODE_CACHE_DIR, bookId_seasonId_episodeId.mp3)`. -/
def getTranscodeCachePath (bookId seasonId episodeId : String) : String :=
  TRANSCODE_CACHE_DIR ++ "/" ++ cacheKey bookId seasonId episodeId ++ ".mp3"

/-- The file system as observed through `fs.existsSync` / `fs.statSync`:
a map from path to file size in bytes (`none` = file absent). -/
abbrev FS := String → Option Nat

/-- Model of `fs.unlinkSync` (with the source's surrounding try/catch: deleting an
absent file is a no-op). -/
def deleteFile (fs : FS) (p : String) : FS :=
  fun q => if q = p then none else fs q

/-- Model of `fs.renameSync src dst`. -/
def renameFile (fs : FS) (src dst : String) : FS :=
  fun q => if q = dst then fs src else if q = src then none else fs q

/-- The module-level mutable state of `transcoder.js`. -/
structure SchedState where
  /-- the file system holding cache artifacts and temp files -/
  fs : FS
  /-- keys of `transcodingInProgress` (the in-progress registry) -/
  inProgress : List String
  /-- the `transcodeQueue` list -/
  queue : List Task
  /-- the `activeWorkers` counter -/
  activeWorkers : Nat
  /-- the `cancelRequested` flag -/
  cancelRequested : Bool
  /-- the `lastCpuSnapshot` rolling sample -/
  lastCpuSnapshot : Option CpuSnapshot

/-- Source `isTranscoded(bookId, seasonId, episodeId)` : the cache file exists and
its size strictly exceeds 1024 bytes. -/
def isTranscoded (fs : FS) (bookId seasonId episodeId : String) : Bool :=
  match fs (getTranscodeCachePath bookId seasonId episodeId) with
  | some size => size > 1024
  | none => false

/-- Result of the synchronous part of `ensureTranscoded` (the code that runs
atomically before the first suspension point). -/
inductive EnsureStart where
  /-- the valid cached artifact is returned immediately -/
  | cacheHit (p : String)
  /-- the promise already registered in `transcodingInProgress` is returned -/
  | awaitExisting
  /-- a new encoder subprocess is spawned, writing to the temp path -/
  | spawned (tempPath : String)
deriving DecidableEq, Repr

/-- Output of the synchronous part of `ensureTranscoded`. -/
structure EnsureOut where
  result : EnsureStart
  fs : FS
  inProgress : List String
  /-- number of encoder subprocesses spawned by this call (0 or 1) -/
  spawnCount : Nat

/-- Lines 149-194 of `ensureTranscoded`: after the cache check, consult the
in-progress registry; if absent, spawn ffmpeg and register the key. -/
def ensureStartEncode (fs : FS) (ip : List String) (t : Task) : EnsureOut :=
  let cachePath := getTranscodeCachePath t.bookId t.seasonId t.episodeId
  let key := taskKey t
  if ip.contains key then
    { result := .awaitExisting, fs := fs, inProgress := ip, spawnCount := 0 }
  else
    { result := .spawned (cachePath ++ ".tmp"), fs := fs,
      inProgress := key :: ip, spawnCount := 1 }

/-- The synchronous part of `ensureTranscoded(filePath, bookId, seasonId,
episodeId)`: check the cache (valid hit returns it; an invalid file is
deleted), then fall through to the registry check / spawn. -/
def ensureTranscodedStart (fs : FS) (ip : List String) (t : Task) : EnsureOut :=
  let cachePath := getTranscodeCachePath t.bookId t.seasonId t.episodeId
  match fs cachePath with
  | some size =>
    if size > 1024 then
      { result := .cacheHit cachePath, fs := fs, inProgress := ip, spawnCount := 0 }
    else
      ensureStartEncode (deleteFile fs cachePath) ip t
  | none => ensureStartEncode fs ip t

/-- Sequential composition of the synchronous parts of several
`ensureTranscoded` calls.  On the single-threaded event loop, N concurrent
callers execute their synchronous prefixes one after another, so this is a
faithful model of N concurrent calls; it returns the final file system and
registry together with the total number of subprocesses spawned. -/
def ensureMany (fs : FS) (ip : List String) (tasks : List Task) :
    FS × List String × Nat :=
  match tasks with
  | [] => (fs, ip, 0)
  | t :: rest =>
    let out := ensureTranscodedStart fs ip t
    let (fs', ip', n) := ensureMany out.fs out.inProgress rest
    (fs', ip', out.spawnCount + n)

/-- How an encode settles. -/
inductive EncodeOutcome where
  /-- resolved with the cache path -/
  | ok (p : String)
  /-- rejected with `Error(exit code: code)` -/
  | failed (code : Int)
  /-- rejected with the process-spawn error -/
  | spawnFailed (msg : String)
deriving DecidableEq, Repr

/-- Model of `transcodingInProgress.delete(key)` on the list-of-keys model. -/
def removeKey (ip : List String) (k : String) : List String :=
  ip.filter (fun x => x ≠ k)

/-- The `ffmpeg.on(close)` handler: unconditionally remove the key from the
registry; on zero exit with the temp file present, rename it into place and
resolve; otherwise delete the temp file and reject with the exit code. -/
def onFfmpegClose (fs : FS) (ip : List String) (t : Task) (code : Int) :
    FS × List String × EncodeOutcome :=
  let cachePath := getTranscodeCachePath t.bookId t.seasonId t.episodeId
  let tempPath := cachePath ++ ".tmp"
  let ip' := removeKey ip (taskKey t)
  if code = 0 ∧ (fs tempPath).isSome then
    (renameFile fs tempPath cachePath, ip', .ok cachePath)
  else
    (deleteFile fs tempPath, ip', .failed code)

/-- The `ffmpeg.on(error)` handler: unconditionally remove the key from the
registry, delete the temp file, reject with the spawn error. -/
def onFfmpegError (fs : FS) (ip : List String) (t : Task) (msg : String) :
    FS × List String × EncodeOutcome :=
  let cachePath := getTranscodeCachePath t.bookId t.seasonId t.episodeId
  let tempPath := cachePath ++ ".tmp"
  (deleteFile fs tempPath, removeKey ip (taskKey t), .spawnFailed msg)

/-- The transcode-related content of the configuration file, as far as
`getTranscodeConfig` reads it: each field may be absent. -/
structure StoredConfig where
  autoTranscode : Option Bool
  autoTranscodeCount : Option Int
deriving DecidableEq, Repr

/-- The record returned by `getTranscodeConfig()`. -/
structure TranscodeConfig where
  autoTranscode : Bool
  autoTranscodeCount : Int
deriving DecidableEq, Repr

/-- Source `getTranscodeConfig()` : `none` models a missing or unparsable config
file (both fall to the defaults).  `config.autoTranscode !== false` defaults
the toggle to true; `config.autoTranscodeCount || 5` treats an absent or
zero (falsy) count as 5, and the result is passed through
`Math.max(1, Math.min(20, _))`. -/
def getTranscodeConfig (file : Option StoredConfig) : TranscodeConfig :=
  match file with
  | none => { autoTranscode := true, autoTranscodeCount := 5 }
  | some c =>
    { autoTranscode := c.autoTranscode ≠ some false,
      autoTranscodeCount :=
        max 1 (min 20 (match c.autoTranscodeCount with
                       | none => 5
                       | some v => if v = 0 then 5 else v)) }

/-- Clamping as the specification words it: the stored value clamped into
the integer range 1-20.  Kept separate from `getTranscodeConfig` so the two
can be compared. -/
def specClampedCount (v : Int) : Int :=
  max 1 (min 20 v)

-- ========== Book / episode model (provided by the library service) ==========

/-- An episode as the library service hands it over: id, absolute source
path and the `needsTranscode` flag computed by the scanner. -/
structure Episode where
  id : String
  filePath : String
  needsTranscode : Bool
deriving DecidableEq, Repr

/-- A season: id plus its episode list, in natural order. -/
structure Season where
  id : String
  episodes : List Episode
deriving DecidableEq, Repr

/-- A book: id, display name, seasons in natural order. -/
structure Book where
  id : String
  name : String
  seasons : List Season
deriving DecidableEq, Repr

/-- The task built for one episode (the object literal pushed by both
pre-transcode strategies). -/
def mkTask (bookId seasonId : String) (ep : Episode) : Task :=
  { filePath := ep.filePath, bookId := bookId, seasonId := seasonId,
    episodeId := ep.id }

/-- The inner `for` loop of `preTranscodeBook` (shared by
`preTranscodeFromPosition` via a drop of the leading episodes): walk the
episodes of one season while `collected < count`, pushing a task for each
episode whose `needsTranscode` flag is set, and incrementing `collected`
for EVERY episode walked.  Returns the pushed tasks and the final value of
`collected`. -/
def collectEpisodes (bookId seasonId : String) (eps : List Episode)
    (count collected : Nat) : List Task × Nat :=
  match eps with
  | [] => ([], collected)
  | ep :: rest =>
    if collected < count then
      let (ts, c') := collectEpisodes bookId seasonId rest count (collected + 1)
      if ep.needsTranscode then (mkTask bookId seasonId ep :: ts, c')
      else (ts, c')
    else ([], collected)

/-- The outer `for` loop of `preTranscodeBook`: walk seasons while
`collected < count`, threading `collected` across season boundaries. -/
def collectSeasons (bookId : String) (seasons : List Season)
    (count collected : Nat) : List Task × Nat :=
  match seasons with
  | [] => ([], collected)
  | s :: rest =>
    if collected < count then
      let (ts, c') := collectEpisodes bookId s.id s.episodes count collected
      let (ts2, c'') := collectSeasons bookId rest count c'
      (ts ++ ts2, c'')
    else ([], collected)

/-- The outer `while` loop of `preTranscodeFromPosition`: the first season
starts at episode index `eStart` (= `episodeIndex + 1`), every later season
at 0. -/
def collectSeasonsPos (bookId : String) (seasons : List Season)
    (count collected eStart : Nat) : List Task × Nat :=
  match seasons with
  | [] => ([], collected)
  | s :: rest =>
    if collected < count then
      let (ts, c') := collectEpisodes bookId s.id (s.episodes.drop eStart)
        count collected
      let (ts2, c'') := collectSeasonsPos bookId rest count c' 0
      (ts ++ ts2, c'')
    else ([], collected)

/-- JS compares `collected < count` on the config's number; `collected`
starts at 0, so for a negative count no episode is walked and otherwise the
loop bound is `count.toNat` — the collectors above therefore take the count
as `autoTranscodeCount.toNat`. -/
def configCount (cfg : TranscodeConfig) : Nat :=
  cfg.autoTranscodeCount.toNat

/-- The task list built by `preTranscodeBook(book)` under configuration
`cfg` (the source reads `cfg` via `getTranscodeConfig()` at call time):
empty when auto-transcode is off or the book has no seasons. -/
def preTranscodeBookTasks (book : Book) (cfg : TranscodeConfig) : List Task :=
  if !cfg.autoTranscode then []
  else if book.seasons.isEmpty then []
  else (collectSeasons book.id book.seasons (configCount cfg) 0).1

/-- The task list built by
`preTranscodeFromPosition(book, seasonIndex, episodeIndex)` under
configuration `cfg`: the walk starts at season `seasonIndex`, episode
`episodeIndex + 1`. -/
def preTranscodeFromPositionTasks (book : Book) (cfg : TranscodeConfig)
    (seasonIndex episodeIndex : Nat) : List Task :=
  if !cfg.autoTranscode then []
  else if book.seasons.isEmpty then []
  else (collectSeasonsPos book.id (book.seasons.drop seasonIndex)
    (configCount cfg) 0 (episodeIndex + 1)).1

/-- The (seasonId, episode) pairs of one season, in order. -/
def seasonPairs (s : Season) : List (String × Episode) :=
  s.episodes.map (fun ep => (s.id, ep))

/-- All (seasonId, episode) pairs of a season list, seasons and episodes in
natural order — used to characterise the collectors. -/
def seasonsEpisodes (seasons : List Season) : List (String × Episode) :=
  seasons.flatMap seasonPairs

/-- All (seasonId, episode) pairs of a book in natural order. -/
def allEpisodes (book : Book) : List (String × Episode) :=
  seasonsEpisodes book.seasons

/-- The pairs of a season list where the first season's first `eStart`
episodes are skipped. -/
def seasonsEpisodesFrom (seasons : List Season) (eStart : Nat) :
    List (String × Episode) :=
  match seasons with
  | [] => []
  | s :: rest => (s.episodes.drop eStart).map (fun ep => (s.id, ep)) ++
      seasonsEpisodes rest

/-- All (seasonId, episode) pairs strictly after position
(seasonIndex, episodeIndex), in natural order. -/
def episodesAfter (book : Book) (seasonIndex episodeIndex : Nat) :
    List (String × Episode) :=
  seasonsEpisodesFrom (book.seasons.drop seasonIndex) (episodeIndex + 1)

/-- The collection the claim describes (a second definition following the
specification's words, for comparison): walk the episodes in natural order
and collect up to `count` episodes NEEDING CONVERSION — i.e. only episodes
with `needsTranscode` count toward the limit. -/
def specCollectBook (book : Book) (cfg : TranscodeConfig) : List Task :=
  if !cfg.autoTranscode then []
  else (((allEpisodes book).filter (fun p => p.2.needsTranscode)).take
    (configCount cfg)).map (fun p => mkTask book.id p.1 p.2)

-- ========== Queue, workers, cancellation, status ==========

/-- The queue-dedup comparison of `enqueueTranscode`: equal identity triple
(`bookId`, `seasonId`, `episodeId`; the source path does not participate). -/
def tripleEq (a b : Task) : Bool :=
  a.bookId == b.bookId && a.seasonId == b.seasonId && a.episodeId == b.episodeId

/-- Admission test of `enqueueTranscode`, evaluated against the state at
entry (the loop accumulates survivors in a local `toAdd`, so every
candidate is checked against the SAME queue/registry/cache): the task is
skipped when already transcoded, in progress, or already queued. -/
def admissible (st : SchedState) (t : Task) : Bool :=
  !isTranscoded st.fs t.bookId t.seasonId t.episodeId &&
  !st.inProgress.contains (taskKey t) &&
  !st.queue.any (fun q => tripleEq q t)

/-- Source `enqueueTranscode(tasks, priority)` : clears the cancellation flag,
filters the candidates, then appends (default) or prepends (priority) the
survivors as one block; returns the new state and the admitted count.
(`scheduleWorkers` is invoked by the source afterwards; worker spawning is
modelled separately by `scheduleWorkersSpawn`.) -/
def enqueueTranscode (st : SchedState) (tasks : List Task)
    (priority : Bool) : SchedState × Nat :=
  let st0 := { st with cancelRequested := false }
  let toAdd := tasks.filter (admissible st0)
  let added := toAdd.length
  if added > 0 then
    let q := if priority then toAdd ++ st0.queue else st0.queue ++ toAdd
    ({ st0 with queue := q }, added)
  else
    (st0, added)

/-- Source `preTranscodeBook` tail: enqueue the collected tasks (normal priority)
when any were collected. -/
def preTranscodeBookRun (st : SchedState) (book : Book)
    (cfg : TranscodeConfig) : SchedState × Nat :=
  let tasks := preTranscodeBookTasks book cfg
  if tasks.isEmpty then (st, 0) else enqueueTranscode st tasks false

/-- Source `preTranscodeFromPosition` tail: enqueue the collected tasks with
priority=true when any were collected. -/
def preTranscodeFromPositionRun (st : SchedState) (book : Book)
    (cfg : TranscodeConfig) (seasonIndex episodeIndex : Nat) :
    SchedState × Nat :=
  let tasks := preTranscodeFromPositionTasks book cfg seasonIndex episodeIndex
  if tasks.isEmpty then (st, 0) else enqueueTranscode st tasks true

/-- The dynamic concurrency ceiling of `scheduleWorkers`:
`Math.max(1, Math.min(Math.floor(cpuCores / 2), MAX_CONCURRENCY))`. -/
def dynamicMax (cpuCores : Nat) : Nat :=
  max 1 (min (cpuCores / 2) MAX_CONCURRENCY)

/-- Source `scheduleWorkers(newTaskCount)` reduced to its decision: how many new
workers are started, as a function of the overload sample, the active
worker count, the queue length, the admitted-task count and the core count.
Overloaded: one worker iff none is active and the queue is non-empty.
Otherwise `max(0, min(newTaskCount, queueLength, dynamicMax) -
activeWorkers)` (natural subtraction is the `Math.max(0, _)`). -/
def scheduleWorkersSpawn (overloaded : Bool) (activeWorkers queueLen
    newTaskCount cpuCores : Nat) : Nat :=
  if overloaded then
    if activeWorkers = 0 && queueLen > 0 then 1 else 0
  else
    min newTaskCount (min queueLen (dynamicMax cpuCores)) - activeWorkers

/-- What one iteration of the worker loop decides to do. -/
inductive WorkerAction where
  /-- the `while` guard failed: queue empty, loop exits -/
  | exitEmpty
  /-- cancellation flag observed: `break` -/
  | breakCancel
  /-- config toggle `autoTranscode` off in the freshly read config: set the flag, `break` -/
  | breakDisabled
  /-- overloaded on 4 consecutive samples (initial check plus 3 retries):
  worker retires, tasks stay queued -/
  | breakOverload
  /-- claim the task at the queue head (`transcodeQueue.shift()`) -/
  | claim (t : Task)
deriving DecidableEq, Repr

/-- One iteration of the `startWorker` loop, lines 212-247.  `cfg` is the
config freshly read by THIS iteration (`getTranscodeConfig()` is called
inside the loop, so a live toggle is seen here); `over k` is the result of
the k-th `isSystemOverloaded()` sample of this iteration.  The worker
retires under overload only when the initial sample and all 3 retry samples
are true; otherwise it falls through and claims the head task (note: with
no further cancellation check after the backoff sleeps). -/
def workerIteration (st : SchedState) (cfg : TranscodeConfig)
    (over : Nat → Bool) : WorkerAction × SchedState :=
  match st.queue with
  | [] => (.exitEmpty, st)
  | t :: rest =>
    if st.cancelRequested then (.breakCancel, st)
    else if !cfg.autoTranscode then
      (.breakDisabled, { st with cancelRequested := true })
    else if over 0 && over 1 && over 2 && over 3 then (.breakOverload, st)
    else (.claim t, { st with queue := rest })

/-- Lines 249-260 of `startWorker`, run when the loop exits: decrement the
active-worker count; if this was the last worker and cancellation was
requested, clear the whole queue and the flag. -/
def workerExit (st : SchedState) : SchedState :=
  let st1 := { st with activeWorkers := st.activeWorkers - 1 }
  if st1.activeWorkers = 0 ∧ st1.cancelRequested = true then
    { st1 with queue := [], cancelRequested := false }
  else st1

/-- The object returned by `cancelQueue()` (`message` strings omitted;
`inProgress` is absent from the no-op result). -/
structure CancelResult where
  cancelled : Nat
  inProgress : Option Nat
deriving DecidableEq, Repr

/-- Source `cancelQueue()` : no-op when nothing is queued and no worker is active;
otherwise set the cancellation flag and report the queue length and the
in-flight worker count. -/
def cancelQueue (st : SchedState) : SchedState × CancelResult :=
  if st.queue.length = 0 ∧ st.activeWorkers = 0 then
    (st, { cancelled := 0, inProgress := none })
  else
    ({ st with cancelRequested := true },
     { cancelled := st.queue.length, inProgress := some st.activeWorkers })

/-- The OS samples `getTranscodeStatus` takes during one call. -/
structure OsEnv where
  cpuSnapshot : CpuSnapshot
  /-- pre-computed `loadavg()[0] / cpus().length` fallback estimate -/
  loadEstimate : ℚ
  totalmem : Int
  freemem : Int
  cpuCores : Nat
deriving DecidableEq, Repr

/-- The record returned by `getTranscodeStatus()` (percentage formatting
and byte-to-MB rounding of the source are presentation only and kept as the
raw rationals/integers they format). -/
structure TranscodeStatus where
  queueLength : Nat
  activeWorkers : Nat
  maxConcurrency : Nat
  inProgress : Nat
  cpuUsage : ℚ
  memUsage : ℚ
  loadLimit : ℚ
  cpuCores : Nat
  totalmem : Int
  freemem : Int
  queueItems : List (String × String × String)
deriving DecidableEq, Repr

/-- Source `getTranscodeStatus()` : reads queue/worker/registry state, samples CPU
(through `getCpuUsage`, which overwrites `lastCpuSnapshot`) and memory, and
previews the first 10 queued identities.  Returns the status record and the
resulting module state. -/
def getTranscodeStatus (st : SchedState) (env : OsEnv) :
    TranscodeStatus × SchedState :=
  let (cpu, snap') := getCpuUsage st.lastCpuSnapshot env.cpuSnapshot env.loadEstimate
  let mem := getMemUsage env.totalmem env.freemem
  ({ queueLength := st.queue.length,
     activeWorkers := st.activeWorkers,
     maxConcurrency := MAX_CONCURRENCY,
     inProgress := st.inProgress.length,
     cpuUsage := cpu,
     memUsage := mem,
     loadLimit := SYSTEM_LOAD_LIMIT,
     cpuCores := env.cpuCores,
     totalmem := env.totalmem,
     freemem := env.freemem,
     queueItems := (st.queue.take 10).map taskTriple },
   { st with lastCpuSnapshot := snap' })

-- ========== Concrete fixtures (for witnesses and counterexamples) ==========

/-- An empty file system. -/
def fsEmpty : FS := fun _ => none

/-- Example task A. -/
def taskA : Task :=
  { filePath := "/lib/a.m4a", bookId := "b1", seasonId := "s1", episodeId := "e1" }

/-- Example task B. -/
def taskB : Task :=
  { filePath := "/lib/b.m4a", bookId := "b1", seasonId := "s1", episodeId := "e2" }

/-- Example task C. -/
def taskC : Task :=
  { filePath := "/lib/c.m4a", bookId := "b1", seasonId := "s1", episodeId := "e3" }

/-- A fresh module state: empty file system, registry and queue, no worker,
no cancellation, no CPU snapshot. -/
def stEmpty : SchedState :=
  { fs := fsEmpty, inProgress := [], queue := [], activeWorkers := 0,
    cancelRequested := false, lastCpuSnapshot := none }

/-- State whose queue already holds tasks A and B (in that order). -/
def stAB : SchedState := { stEmpty with queue := [taskA, taskB] }

/-- An episode that does not need transcoding (already web-friendly). -/
def epPlain : Episode :=
  { id := "e1", filePath := "/lib/e1.mp3", needsTranscode := false }

/-- An episode that needs transcoding. -/
def epNeeds : Episode :=
  { id := "e2", filePath := "/lib/e2.m4a", needsTranscode := true }

/-- One-season book whose first episode is web-friendly and whose second
needs conversion. -/
def bookEx : Book :=
  { id := "b1", name := "Example",
    seasons := [{ id := "s1", episodes := [epPlain, epNeeds] }] }

/-- Config: auto-transcode on, count 1. -/
def cfgOne : TranscodeConfig := { autoTranscode := true, autoTranscodeCount := 1 }

/-- Config: auto-transcode on, count 3. -/
def cfgThree : TranscodeConfig := { autoTranscode := true, autoTranscodeCount := 3 }

/-- An episode of season two that needs conversion. -/
def epThird : Episode :=
  { id := "e3", filePath := "/lib/e3.m4a", needsTranscode := true }

/-- A second season holding one episode that needs conversion. -/
def seasonTwo : Season := { id := "s2", episodes := [epThird] }

/-- Two-season book: season one as in bookEx, season two with one
needs-transcode episode. -/
def bookTwoSeasons : Book :=
  { id := "b1", name := "Example2",
    seasons := [{ id := "s1", episodes := [epPlain, epNeeds] }, seasonTwo] }

/-- Stored config whose count field holds the falsy 0. -/
def storedZero : StoredConfig := { autoTranscode := none, autoTranscodeCount := some 0 }

/-- Stored config whose count field holds the out-of-range 25. -/
def storedBig : StoredConfig := { autoTranscode := none, autoTranscodeCount := some 25 }

/-- CPU snapshot at the origin. -/
def snapZero : CpuSnapshot := { idle := 0, total := 0 }

/-- A later CPU snapshot (mostly idle so far). -/
def snapMid : CpuSnapshot := { idle := 700, total := 1000 }

/-- A still later CPU snapshot (busy since snapMid). -/
def snapLater : CpuSnapshot := { idle := 800, total := 2000 }

/-- Fresh state that has already taken the origin snapshot. -/
def stSnap : SchedState := { stEmpty with lastCpuSnapshot := some snapZero }

/-- OS samples for a status call taken at snapMid on an unloaded 4-core
host. -/
def envMid : OsEnv :=
  { cpuSnapshot := snapMid, loadEstimate := 0, totalmem := 1000,
    freemem := 1000, cpuCores := 4 }

end Audiobook

namespace Audiobook

-- ========== Helper lemmas ==========

/-- Deleting a key really removes it from the registry. -/
theorem not_mem_removeKey (ip : List String) (k : String) :
    k ∉ removeKey ip k := by
  intro hm
  simp only [removeKey] at hm
  have := List.of_mem_filter hm
  simp at this

/-- Deleting a key really removes it from the registry. -/
theorem removeKey_not_contains (ip : List String) (k : String) :
    (removeKey ip k).contains k = false := by
  rw [Bool.eq_false_iff]
  intro hc
  exact not_mem_removeKey ip k (by simpa using hc)

/-- The admission test ignores the cancellation flag. -/
theorem admissible_clearCancel (st : SchedState) :
    admissible { st with cancelRequested := false } = admissible st :=
  funext fun _ => rfl

/-- The queue produced by one enqueue call: the admitted block is appended
(default) or prepended (priority) to the old queue. -/
theorem enqueueTranscode_queue_eq (st : SchedState) (tasks : List Task)
    (priority : Bool) :
    (enqueueTranscode st tasks priority).1.queue =
      if priority then tasks.filter (admissible st) ++ st.queue
      else st.queue ++ tasks.filter (admissible st) := by
  simp only [enqueueTranscode, admissible_clearCancel]
  by_cases h : 0 < (tasks.filter (admissible st)).length
  · simp only [h, if_true]
  · have hnil : tasks.filter (admissible st) = [] := by
      simp_all [List.length_eq_zero]
    simp [hnil]

/-- The count returned by one enqueue call. -/
theorem enqueueTranscode_count_eq (st : SchedState) (tasks : List Task)
    (priority : Bool) :
    (enqueueTranscode st tasks priority).2 =
      (tasks.filter (admissible st)).length := by
  simp only [enqueueTranscode, admissible_clearCancel]
  by_cases h : 0 < (tasks.filter (admissible st)).length <;> simp [h]

-- ========== C2 ==========

/-- C2 — Cache validity: isTranscoded is true iff the artifact exists with
size strictly above 1024 bytes; when ensureTranscoded runs while a stale
(≤ 1024 byte) artifact exists, the artifact is deleted, the call never
returns it as a cache hit, and (when the triple is not in the in-progress
registry) a fresh encode is spawned. -/
theorem isTranscoded_validity (fs : FS) (ip : List String) (t : Task)
    (sz : Nat)
    (hstale : fs (getTranscodeCachePath t.bookId t.seasonId t.episodeId) = some sz)
    (hsmall : sz ≤ 1024) :
    (∀ g : FS, ∀ b s e : String, (isTranscoded g b s e = true ↔
      ∃ n, g (getTranscodeCachePath b s e) = some n ∧ 1024 < n)) ∧
    (ensureTranscodedStart fs ip t).fs
      (getTranscodeCachePath t.bookId t.seasonId t.episodeId) = none ∧
    (∀ p, (ensureTranscodedStart fs ip t).result ≠ .cacheHit p) ∧
    (taskKey t ∉ ip →
      (ensureTranscodedStart fs ip t).result =
        .spawned (getTranscodeCachePath t.bookId t.seasonId t.episodeId ++ ".tmp") ∧
      (ensureTranscodedStart fs ip t).spawnCount = 1) := by
  have hlt : ¬ 1024 < sz := Nat.not_lt.mpr hsmall
  refine ⟨?_, ?_, ?_, ?_⟩
  · intro g b s e
    unfold isTranscoded
    rcases hg : g (getTranscodeCachePath b s e) with _ | n <;> simp [hg]
  · unfold ensureTranscodedStart ensureStartEncode
    by_cases hip : taskKey t ∈ ip <;> simp [hstale, hlt, hip, deleteFile]
  · intro p
    unfold ensureTranscodedStart ensureStartEncode
    by_cases hip : taskKey t ∈ ip <;> simp [hstale, hlt, hip]
  · intro hip
    unfold ensureTranscodedStart ensureStartEncode
    simp [hstale, hlt, hip]

/-- Witness for C2 at a concrete stale 100-byte artifact. -/
theorem isTranscoded_validity_witness :
    ((fun p => if p = getTranscodeCachePath "b1" "s1" "e1" then some 100 else none :
        FS) (getTranscodeCachePath taskA.bookId taskA.seasonId taskA.episodeId) =
      some 100 ∧ 100 ≤ 1024) ∧
    (ensureTranscodedStart
      (fun p => if p = getTranscodeCachePath "b1" "s1" "e1" then some 100 else none)
      [] taskA).fs
      (getTranscodeCachePath taskA.bookId taskA.seasonId taskA.episodeId) = none :=
  ⟨⟨by rfl, by decide⟩,
    (isTranscoded_validity
      (fun p => if p = getTranscodeCachePath "b1" "s1" "e1" then some 100 else none)
      [] taskA 100 (by rfl) (by decide)).2.1⟩

-- ========== C6 ==========

/-- C6 — Worker admission control: when not overloaded, the number of
workers started is max(0, min(newTaskCount, queueLength,
clamp(floor(cores/2), 1, 10)) - activeWorkers), so whenever any worker is
started the resulting active count stays within the ceiling; when
overloaded, exactly one worker is started iff none is active and the queue
is non-empty. -/
theorem scheduleWorkers_admission (a q n c : Nat) (over : Bool) :
    (over = false →
      (scheduleWorkersSpawn over a q n c : ℤ) =
        max 0 ((min (n : ℤ) (min (q : ℤ) (max 1 (min ((c : ℤ) / 2) 10)))) - (a : ℤ)) ∧
      (0 < scheduleWorkersSpawn over a q n c →
        a + scheduleWorkersSpawn over a q n c ≤ max 1 (min (c / 2) 10))) ∧
    (over = true →
      scheduleWorkersSpawn over a q n c =
        if a = 0 ∧ 0 < q then 1 else 0) := by
  constructor
  · rintro rfl
    constructor
    · simp only [scheduleWorkersSpawn, dynamicMax, MAX_CONCURRENCY, if_false,
        Bool.false_eq_true]
      have hfloor : ((c : ℤ) / 2) = ((c / 2 : Nat) : ℤ) := by omega
      rw [hfloor]
      push_cast
      omega
    · intro hpos
      simp only [scheduleWorkersSpawn, dynamicMax, MAX_CONCURRENCY,
        Bool.false_eq_true, if_false] at hpos ⊢
      omega
  · rintro rfl
    simp only [scheduleWorkersSpawn, if_true]
    rcases Nat.eq_zero_or_pos a with ha | ha <;>
      rcases Nat.eq_zero_or_pos q with hq | hq <;>
      simp [ha, hq]

/-- Witness for C6: 8 cores, 3 new tasks on a 3-long queue, idle host —
ceiling 4, three workers started. -/
theorem scheduleWorkers_admission_witness :
    (false = false) ∧
    (scheduleWorkersSpawn false 0 3 3 8 : ℤ) =
      max 0 ((min (3 : ℤ) (min (3 : ℤ) (max 1 (min ((8 : ℤ) / 2) 10)))) - (0 : ℤ)) :=
  ⟨rfl, ((scheduleWorkers_admission 0 3 3 8 false).1 rfl).1⟩

-- ========== C7 ==========

/-- C7 — Cancellation drains: once the cancellation flag is set a worker
iteration claims no task and leaves the queue alone; when the last active
worker exits with the flag set, the queue is emptied and the flag cleared;
cancelQueue on an idle scheduler is a no-op reporting zero cancelled and
setting no flag, and otherwise sets the flag and reports the queued count
and the in-flight worker count. -/
theorem cancellation_drains (st st1 stc : SchedState) (cfg : TranscodeConfig)
    (over : Nat → Bool) :
    (st.cancelRequested = true →
      (∀ t2, (workerIteration st cfg over).1 ≠ .claim t2) ∧
      (workerIteration st cfg over).2.queue = st.queue) ∧
    (st1.activeWorkers = 1 → st1.cancelRequested = true →
      (workerExit st1).queue = [] ∧
      (workerExit st1).cancelRequested = false ∧
      (workerExit st1).activeWorkers = 0) ∧
    (stc.queue = [] → stc.activeWorkers = 0 →
      cancelQueue stc = (stc, { cancelled := 0, inProgress := none })) ∧
    (stc.queue ≠ [] ∨ stc.activeWorkers ≠ 0 →
      (cancelQueue stc).2 =
        { cancelled := stc.queue.length, inProgress := some stc.activeWorkers } ∧
      (cancelQueue stc).1.cancelRequested = true) := by
  refine ⟨?_, ?_, ?_, ?_⟩
  · intro hc
    rcases hq : st.queue with _ | ⟨t, rest⟩
    · exact ⟨fun t2 => by simp [workerIteration, hq], by simp [workerIteration, hq]⟩
    · exact ⟨fun t2 => by simp [workerIteration, hq, hc], by simp [workerIteration, hq, hc]⟩
  · intro ha hc
    simp [workerExit, ha, hc]
  · intro hq ha
    simp [cancelQueue, hq, ha]
  · intro h
    have hcond : ¬ (stc.queue = [] ∧ stc.activeWorkers = 0) := by
      rcases h with h | h
      · exact fun hh => h hh.1
      · exact fun hh => h hh.2
    simp [cancelQueue, hcond]

/-- Witness for C7: flag set over queue [A]; one active worker exiting;
idle cancel; busy cancel. -/
theorem cancellation_drains_witness :
    ({ stAB with cancelRequested := true }.cancelRequested = true ∧
      { stAB with activeWorkers := 1, cancelRequested := true }.activeWorkers = 1 ∧
      stEmpty.queue = [] ∧ stAB.queue ≠ []) ∧
    (workerExit { stAB with activeWorkers := 1, cancelRequested := true }).queue = [] ∧
    cancelQueue stEmpty = (stEmpty, { cancelled := 0, inProgress := none }) :=
  ⟨⟨rfl, rfl, rfl, by decide⟩,
    ((cancellation_drains { stAB with cancelRequested := true }
        { stAB with activeWorkers := 1, cancelRequested := true } stEmpty
        cfgOne (fun _ => false)).2.1 rfl rfl).1,
    ((cancellation_drains { stAB with cancelRequested := true }
        { stAB with activeWorkers := 1, cancelRequested := true } stEmpty
        cfgOne (fun _ => false)).2.2.1 rfl rfl)⟩

-- ========== C1 ==========

/-- While a triple is registered and its cache file is absent, any further
sequence of synchronous ensureTranscoded entries for it spawns nothing and
leaves the registry and file system unchanged. -/
theorem ensureMany_registered_spawns_none (t : Task) (k : Nat) :
    ∀ fs : FS, ∀ ip : List String,
      fs (getTranscodeCachePath t.bookId t.seasonId t.episodeId) = none →
      taskKey t ∈ ip →
      ensureMany fs ip (List.replicate k t) = (fs, ip, 0) := by
  induction k with
  | zero => intro fs ip _ _; rfl
  | succ k ih =>
    intro fs ip hfs hip
    have hstart : ensureTranscodedStart fs ip t =
        { result := .awaitExisting, fs := fs, inProgress := ip, spawnCount := 0 } := by
      unfold ensureTranscodedStart ensureStartEncode
      simp [hfs, hip]
    simp only [List.replicate_succ, ensureMany, hstart]
    simp [ih fs ip hfs hip]

/-- C1 — Single-flight: entering ensureTranscoded while the triple's encode
is already registered (and the cache is not valid) awaits the registered
outcome, spawns no subprocess and does not change the registry; and from a
clean state (no cache file, triple unregistered), n+1 consecutive
synchronous entries for the same triple — the event-loop serialisation of
n+1 concurrent callers — spawn exactly one encoder subprocess in total. -/
theorem ensureTranscoded_single_flight (fs : FS) (ip : List String) (t : Task)
    (n : Nat)
    (hreg : taskKey t ∈ ip)
    (hcache : isTranscoded fs t.bookId t.seasonId t.episodeId = false) :
    ((ensureTranscodedStart fs ip t).result = .awaitExisting ∧
     (ensureTranscodedStart fs ip t).spawnCount = 0 ∧
     (ensureTranscodedStart fs ip t).inProgress = ip) ∧
    (∀ g : FS, ∀ ip0 : List String,
      g (getTranscodeCachePath t.bookId t.seasonId t.episodeId) = none →
      taskKey t ∉ ip0 →
      (ensureMany g ip0 (List.replicate (n + 1) t)).2.2 = 1) := by
  constructor
  · unfold ensureTranscodedStart ensureStartEncode
    unfold isTranscoded at hcache
    rcases hg : fs (getTranscodeCachePath t.bookId t.seasonId t.episodeId) with _ | sz
    · simp [hg, hreg]
    · rw [hg] at hcache
      simp only [decide_eq_false_iff_not] at hcache
      simp [hg, hcache, hreg]
  · intro g ip0 hg hip0
    have hstart : ensureTranscodedStart g ip0 t =
        { result := .spawned
            (getTranscodeCachePath t.bookId t.seasonId t.episodeId ++ ".tmp"),
          fs := g, inProgress := taskKey t :: ip0, spawnCount := 1 } := by
      unfold ensureTranscodedStart ensureStartEncode
      simp [hg, hip0]
    simp only [List.replicate_succ, ensureMany, hstart]
    have hrest := ensureMany_registered_spawns_none t n g (taskKey t :: ip0) hg
      (List.mem_cons_self _ _)
    simp [hrest]

/-- Witness for C1: task A registered over an empty file system; and three
concurrent callers from the clean state spawn once. -/
theorem ensureTranscoded_single_flight_witness :
    (taskKey taskA ∈ [taskKey taskA] ∧
      isTranscoded fsEmpty taskA.bookId taskA.seasonId taskA.episodeId = false ∧
      fsEmpty (getTranscodeCachePath taskA.bookId taskA.seasonId taskA.episodeId) =
        none ∧ taskKey taskA ∉ ([] : List String)) ∧
    (ensureTranscodedStart fsEmpty [taskKey taskA] taskA).spawnCount = 0 ∧
    (ensureMany fsEmpty [] (List.replicate 3 taskA)).2.2 = 1 :=
  ⟨⟨List.mem_singleton.mpr rfl, rfl, rfl, List.not_mem_nil _⟩,
    (ensureTranscoded_single_flight fsEmpty [taskKey taskA] taskA 2
      (List.mem_singleton.mpr rfl) rfl).1.2.1,
    (ensureTranscoded_single_flight fsEmpty [taskKey taskA] taskA 2
      (List.mem_singleton.mpr rfl) rfl).2 fsEmpty [] rfl (List.not_mem_nil _)⟩

-- ========== C8 ==========

/-- C8 — Registry removal on settle: both settle handlers unconditionally
remove the triple from the registry; on the failure paths (non-zero exit or
exit without a temp file, and spawn error) the temp file is deleted and the
outcome carries the exit code respectively the spawn error; on the success
path the temp file is renamed to the cache path; and after a failed settle
a new ensureTranscoded entry for the same triple (cache file still absent,
registry otherwise empty of the key) spawns a fresh encode. -/
theorem registry_removed_on_settle (fs : FS) (ip : List String) (t : Task)
    (code : Int) (msg : String)
    (hfail : ¬ (code = 0 ∧ (fs (getTranscodeCachePath t.bookId t.seasonId
      t.episodeId ++ ".tmp")).isSome = true)) :
    ((onFfmpegClose fs ip t code).2.1.contains (taskKey t) = false ∧
     (onFfmpegError fs ip t msg).2.1.contains (taskKey t) = false) ∧
    ((onFfmpegClose fs ip t code).1
        (getTranscodeCachePath t.bookId t.seasonId t.episodeId ++ ".tmp") = none ∧
     (onFfmpegClose fs ip t code).2.2 = .failed code) ∧
    ((onFfmpegError fs ip t msg).1
        (getTranscodeCachePath t.bookId t.seasonId t.episodeId ++ ".tmp") = none ∧
     (onFfmpegError fs ip t msg).2.2 = .spawnFailed msg) ∧
    (∀ g : FS, ∀ code2 : Int,
      g (getTranscodeCachePath t.bookId t.seasonId t.episodeId) = none →
      ¬ (code2 = 0 ∧ (g (getTranscodeCachePath t.bookId t.seasonId
          t.episodeId ++ ".tmp")).isSome = true) →
      (ensureTranscodedStart (onFfmpegClose g ip t code2).1
        (onFfmpegClose g ip t code2).2.1 t).spawnCount = 1) := by
  refine ⟨⟨?_, ?_⟩, ?_, ?_, ?_⟩
  · unfold onFfmpegClose
    by_cases hc : code = 0 ∧ (fs (getTranscodeCachePath t.bookId t.seasonId
        t.episodeId ++ ".tmp")).isSome = true <;>
      simp [hc, not_mem_removeKey]
  · unfold onFfmpegError
    simp [not_mem_removeKey]
  · unfold onFfmpegClose
    simp [hfail, deleteFile]
  · unfold onFfmpegError
    simp [deleteFile]
  · intro g code2 hg hfail2
    have hclose : onFfmpegClose g ip t code2 =
        (deleteFile g (getTranscodeCachePath t.bookId t.seasonId t.episodeId
          ++ ".tmp"), removeKey ip (taskKey t), .failed code2) := by
      unfold onFfmpegClose
      simp [hfail2]
    rw [hclose]
    have hcache : deleteFile g (getTranscodeCachePath t.bookId t.seasonId
        t.episodeId ++ ".tmp") (getTranscodeCachePath t.bookId t.seasonId
        t.episodeId) = none := by
      simp [deleteFile, hg]
    unfold ensureTranscodedStart ensureStartEncode
    simp [hcache, not_mem_removeKey]

/-- Witness for C8 at exit code 1 with no temp file on an empty file
system. -/
theorem registry_removed_on_settle_witness :
    (¬ ((1 : Int) = 0 ∧ (fsEmpty (getTranscodeCachePath taskA.bookId
        taskA.seasonId taskA.episodeId ++ ".tmp")).isSome = true)) ∧
    (onFfmpegClose fsEmpty [taskKey taskA] taskA 1).2.1.contains
      (taskKey taskA) = false ∧
    (onFfmpegClose fsEmpty [taskKey taskA] taskA 1).2.2 = .failed 1 :=
  ⟨by decide,
    (registry_removed_on_settle fsEmpty [taskKey taskA] taskA 1 "x"
      (by decide)).1.1,
    (registry_removed_on_settle fsEmpty [taskKey taskA] taskA 1 "x"
      (by decide)).2.1.2⟩

-- ========== C5 ==========

/-- C5 — Priority insertion order: the admitted block T (candidate order
preserved by the admission filter) is prepended contiguously for a priority
batch and appended otherwise; in particular enqueuing the admissible batch
[C] with priority over the queue [A, B] yields [C, A, B]. -/
theorem enqueueTranscode_priority_order :
    (∀ st : SchedState, ∀ tasks : List Task, ∀ priority : Bool,
      (enqueueTranscode st tasks priority).1.queue =
        if priority then tasks.filter (admissible st) ++ st.queue
        else st.queue ++ tasks.filter (admissible st)) ∧
    (enqueueTranscode stAB [taskC] true).1.queue = [taskC, taskA, taskB] ∧
    (enqueueTranscode stAB [taskC] false).1.queue = [taskA, taskB, taskC] := by
  refine ⟨enqueueTranscode_queue_eq, ?_, ?_⟩ <;> decide

-- ========== C9 ==========

/-- C9 counterexample: for the stored value 0 — an out-of-range value —
clamping into 1-20 would give 1, but getTranscodeConfig returns 5, because
the JS expression (config.autoTranscodeCount || 5) treats the falsy 0 as
missing before the clamp is applied. -/
theorem getTranscodeConfig_zero_not_clamped :
    (getTranscodeConfig (some storedZero)).autoTranscodeCount = 5 ∧
    specClampedCount 0 = 1 ∧ (5 : Int) ≠ 1 := by
  refine ⟨rfl, rfl, by decide⟩

/-- C9 (amended) — Config clamping: a missing or unparsable file yields the
defaults (on, 5); a stored non-zero count is clamped into 1-20 exactly as
max(1, min(20, v)); a missing or zero stored count defaults to 5; and the
returned count always lies in the integer range 1-20, with out-of-range
values clamped rather than rejected. -/
theorem getTranscodeConfig_clamping (c : StoredConfig) (v : Int)
    (hv : v ≠ 0) :
    (getTranscodeConfig none =
      { autoTranscode := true, autoTranscodeCount := 5 }) ∧
    (c.autoTranscodeCount = some v →
      (getTranscodeConfig (some c)).autoTranscodeCount = specClampedCount v) ∧
    ((c.autoTranscodeCount = none ∨ c.autoTranscodeCount = some 0) →
      (getTranscodeConfig (some c)).autoTranscodeCount = 5) ∧
    (1 ≤ (getTranscodeConfig (some c)).autoTranscodeCount ∧
      (getTranscodeConfig (some c)).autoTranscodeCount ≤ 20) := by
  refine ⟨rfl, ?_, ?_, ?_⟩
  · intro hc
    simp [getTranscodeConfig, specClampedCount, hc, hv]
  · rintro (hc | hc) <;> simp [getTranscodeConfig, hc]
  · rcases hc : c.autoTranscodeCount with _ | w
    · simp [getTranscodeConfig, hc]
    · by_cases hw : w = 0 <;> simp [getTranscodeConfig, hc, hw]

/-- Witness for C9 at the stored value 25 (clamped to 20). -/
theorem getTranscodeConfig_clamping_witness :
    ((25 : Int) ≠ 0 ∧ storedBig.autoTranscodeCount = some 25) ∧
    (getTranscodeConfig (some storedBig)).autoTranscodeCount =
      specClampedCount 25 :=
  ⟨⟨by decide, rfl⟩,
    (getTranscodeConfig_clamping storedBig 25 (by decide)).2.1 rfl⟩

-- ========== C10 ==========

/-- C10 — Status is not a pure observation: getTranscodeStatus overwrites
the rolling CPU snapshot with the one sampled during the call, while
leaving queue, registry, worker count and cancellation flag unchanged; at
concrete snapshots, the overwrite changes the utilisation delta — and even
the overload verdict — computed by the next isSystemOverloaded check. -/
theorem getTranscodeStatus_frame_effect (st : SchedState) (env : OsEnv) :
    ((getTranscodeStatus st env).2.lastCpuSnapshot = some env.cpuSnapshot ∧
     (getTranscodeStatus st env).2.queue = st.queue ∧
     (getTranscodeStatus st env).2.inProgress = st.inProgress ∧
     (getTranscodeStatus st env).2.activeWorkers = st.activeWorkers ∧
     (getTranscodeStatus st env).2.cancelRequested = st.cancelRequested ∧
     (getTranscodeStatus st env).2.fs = st.fs) ∧
    ((getTranscodeStatus stSnap envMid).2.lastCpuSnapshot = some snapMid ∧
     isSystemOverloadedAt (getCpuUsage (some snapMid) snapLater 0).1 0 = true ∧
     isSystemOverloadedAt (getCpuUsage (some snapZero) snapLater 0).1 0 = false) := by
  constructor
  · rcases hsnap : st.lastCpuSnapshot with _ | prev <;>
      simp [getTranscodeStatus, getCpuUsage, hsnap]
  · refine ⟨rfl, ?_, ?_⟩ <;>
      simp [isSystemOverloadedAt, getCpuUsage, SYSTEM_LOAD_LIMIT, snapZero,
        snapMid, snapLater] <;>
      norm_num

-- ========== C3 ==========

/-- The inner episode walk collects the needs-transcode episodes among the
first (count - collected) episodes, and advances the walked-episode counter
by every episode it passes, whether or not that episode needs transcoding. -/
theorem collectEpisodes_eq (bookId seasonId : String) (eps : List Episode) :
    ∀ count collected : Nat,
      collectEpisodes bookId seasonId eps count collected =
        (((eps.take (count - collected)).filter
            (fun e => e.needsTranscode)).map (mkTask bookId seasonId),
         collected + min eps.length (count - collected)) := by
  induction eps with
  | nil => intro count collected; simp [collectEpisodes]
  | cons ep rest ih =>
    intro count collected
    by_cases hlt : collected < count
    · have hk : count - collected = (count - (collected + 1)) + 1 := by omega
      rw [collectEpisodes, ih count (collected + 1)]
      simp only [hlt, if_true, hk, List.take_succ_cons]
      by_cases hneed : ep.needsTranscode = true <;>
        simp only [hneed, if_true, if_false, Bool.false_eq_true,
          List.filter_cons, List.map_cons, Prod.mk.injEq, List.length_cons] <;>
        exact ⟨by trivial, by omega⟩
    · have hk : count - collected = 0 := by omega
      rw [collectEpisodes]
      simp [hlt, hk]

/-- The outer season walk of preTranscodeBook, characterised over the
flattened episode sequence. -/
theorem collectSeasons_eq (bookId : String) (seasons : List Season) :
    ∀ count collected : Nat,
      collectSeasons bookId seasons count collected =
        ((((seasonsEpisodes seasons).take (count - collected)).filter
            (fun p => p.2.needsTranscode)).map (fun p => mkTask bookId p.1 p.2),
         collected + min (seasonsEpisodes seasons).length (count - collected)) := by
  induction seasons with
  | nil => intro count collected; simp [collectSeasons, seasonsEpisodes]
  | cons s rest ih =>
    intro count collected
    by_cases hlt : collected < count
    · rw [collectSeasons]
      simp only [hlt, if_true, collectEpisodes_eq, ih]
      have hsplit : seasonsEpisodes (s :: rest) =
          s.episodes.map (fun ep => (s.id, ep)) ++ seasonsEpisodes rest := by
        simp [seasonsEpisodes, seasonPairs]
      rw [hsplit]
      simp only [List.take_append_eq_append_take, List.filter_append,
        List.map_append, List.length_append, List.length_map, Prod.mk.injEq]
      constructor
      · have harith : count - (collected + min s.episodes.length
            (count - collected)) = count - collected - s.episodes.length := by
          omega
        rw [harith, ← List.map_take, List.filter_map, List.map_map]
        rfl
      · omega
    · have hk : count - collected = 0 := by omega
      rw [collectSeasons]
      simp [hlt, hk]

/-- With a zero episode offset the position walk coincides with the
from-the-start walk. -/
theorem collectSeasonsPos_zero (bookId : String) (seasons : List Season) :
    ∀ count collected : Nat,
      collectSeasonsPos bookId seasons count collected 0 =
        collectSeasons bookId seasons count collected := by
  induction seasons with
  | nil => intro count collected; rfl
  | cons s rest ih =>
    intro count collected
    rw [collectSeasonsPos, collectSeasons]
    by_cases hlt : collected < count <;> simp [hlt, ih]

/-- The position walk of preTranscodeFromPosition, characterised over the
flattened suffix sequence. -/
theorem collectSeasonsPos_eq (bookId : String) (seasons : List Season)
    (count eStart : Nat) :
    (collectSeasonsPos bookId seasons count 0 eStart).1 =
      (((seasonsEpisodesFrom seasons eStart).take count).filter
        (fun p => p.2.needsTranscode)).map (fun p => mkTask bookId p.1 p.2) := by
  cases seasons with
  | nil => simp [collectSeasonsPos, seasonsEpisodesFrom]
  | cons s rest =>
    by_cases hc : 0 < count
    · rw [collectSeasonsPos]
      simp only [hc, if_true, collectEpisodes_eq, collectSeasonsPos_zero,
        collectSeasons_eq, Nat.sub_zero, Nat.zero_add, seasonsEpisodesFrom]
      simp only [List.take_append_eq_append_take, List.filter_append,
        List.map_append, List.length_map, List.length_drop]
      have harith : count - min (s.episodes.length - eStart) count =
          count - (s.episodes.length - eStart) := by omega
      rw [harith, ← List.map_take, List.filter_map, List.map_map]
      rfl
    · have hk : count = 0 := by omega
      rw [collectSeasonsPos]
      simp [hk]

/-- C3 counterexample: book with episodes [no-transcode, needs-transcode]
and autoTranscodeCount = 1.  Counting only needs-transcode episodes toward
the limit (the claim) would collect the second episode; the code counts
every walked episode toward the limit, walks only the first episode, and
collects nothing. -/
theorem preTranscodeBook_counts_all_walked :
    preTranscodeBookTasks bookEx cfgOne = [] ∧
    specCollectBook bookEx cfgOne = [mkTask "b1" "s1" epNeeds] ∧
    preTranscodeBookTasks bookEx cfgOne ≠ specCollectBook bookEx cfgOne := by
  refine ⟨rfl, rfl, by decide⟩

/-- C3 (amended) — Both strategies walk the episodes in natural order
(from the very first episode, respectively from the episode immediately
after the given position, across season boundaries), but every walked
episode counts toward the autoTranscodeCount limit: the collected tasks are
exactly the episodes with needsTranscode among the first autoTranscodeCount
episodes of the walk, and exactly these tasks are handed to the enqueue
step (normal priority for the book strategy, priority for the position
strategy). -/
theorem preTranscode_collects_window (book : Book) (cfg : TranscodeConfig)
    (sIdx eIdx : Nat) (hauto : cfg.autoTranscode = true) :
    preTranscodeBookTasks book cfg =
      (((allEpisodes book).take (configCount cfg)).filter
        (fun p => p.2.needsTranscode)).map (fun p => mkTask book.id p.1 p.2) ∧
    preTranscodeFromPositionTasks book cfg sIdx eIdx =
      (((episodesAfter book sIdx eIdx).take (configCount cfg)).filter
        (fun p => p.2.needsTranscode)).map (fun p => mkTask book.id p.1 p.2) ∧
    (∀ st : SchedState,
      (preTranscodeBookRun st book cfg).1.queue =
        st.queue ++ (preTranscodeBookTasks book cfg).filter (admissible st) ∧
      (preTranscodeFromPositionRun st book cfg sIdx eIdx).1.queue =
        (preTranscodeFromPositionTasks book cfg sIdx eIdx).filter
          (admissible st) ++ st.queue) := by
  refine ⟨?_, ?_, ?_⟩
  · unfold preTranscodeBookTasks
    rcases hs : book.seasons with _ | ⟨s, rest⟩
    · simp [hauto, allEpisodes, seasonsEpisodes, hs]
    · simp only [hauto, Bool.not_true, Bool.false_eq_true, if_false, hs,
        List.isEmpty_cons, collectSeasons_eq, Nat.sub_zero]
      simp [allEpisodes, hs]
  · unfold preTranscodeFromPositionTasks
    rcases hs : book.seasons with _ | ⟨s, rest⟩
    · simp [hauto, episodesAfter, seasonsEpisodesFrom, hs]
    · simp only [hauto, Bool.not_true, Bool.false_eq_true, if_false, hs,
        List.isEmpty_cons, collectSeasonsPos_eq]
      simp [episodesAfter, hs]
  · intro st
    constructor
    · unfold preTranscodeBookRun
      rcases ht : preTranscodeBookTasks book cfg with _ | ⟨t, ts⟩
      · simp
      · simp only [List.isEmpty_cons, Bool.false_eq_true, if_false,
          enqueueTranscode_queue_eq]
    · unfold preTranscodeFromPositionRun
      rcases ht : preTranscodeFromPositionTasks book cfg sIdx eIdx with _ | ⟨t, ts⟩
      · simp
      · simp only [List.isEmpty_cons, Bool.false_eq_true, if_false,
          enqueueTranscode_queue_eq]
        simp

/-- Witness for C3 (amended) at a two-season book and count 3. -/
theorem preTranscode_collects_window_witness :
    cfgThree.autoTranscode = true ∧
    preTranscodeBookTasks bookTwoSeasons cfgThree =
      (((allEpisodes bookTwoSeasons).take (configCount cfgThree)).filter
        (fun p => p.2.needsTranscode)).map
          (fun p => mkTask bookTwoSeasons.id p.1 p.2) :=
  ⟨rfl, (preTranscode_collects_window bookTwoSeasons cfgThree 0 0 rfl).1⟩

-- ========== C4 ==========

/-- The queue-dedup comparison decides equality of identity triples. -/
theorem tripleEq_iff (a b : Task) :
    tripleEq a b = true ↔ taskTriple a = taskTriple b := by
  simp [tripleEq, taskTriple, Prod.ext_iff, and_assoc]

/-- An admitted task's identity triple does not occur in the queue it was
checked against. -/
theorem admissible_not_in_queue (st : SchedState) (t : Task)
    (h : admissible st t = true) :
    taskTriple t ∉ st.queue.map taskTriple := by
  intro hmem
  rcases List.mem_map.mp hmem with ⟨q, hq, heq⟩
  simp [admissible, Bool.and_eq_true, Bool.not_eq_true'] at h
  have h1 : tripleEq q t = true := (tripleEq_iff q t).mpr heq
  have h2 : tripleEq q t = false := h.2 q hq
  rw [h1] at h2
  exact Bool.noConfusion h2

/-- C4 (amended) — Enqueue deduplication: a candidate is admitted iff its
triple is not cached-valid, not in the in-progress registry, and not equal
to any task already in the queue; the returned count is the number of
admitted tasks; and the queue holds no two entries with the same identity
triple after the call PROVIDED it held none before and the batch itself
carries no duplicate triples (duplicates inside one batch are checked only
against the pre-existing queue, not against each other). -/
theorem enqueueTranscode_admission (st : SchedState) (tasks : List Task)
    (priority : Bool)
    (hq : (st.queue.map taskTriple).Nodup)
    (ht : (tasks.map taskTriple).Nodup) :
    ((enqueueTranscode st tasks priority).2 =
      (tasks.filter (admissible st)).length) ∧
    (∀ t : Task, t ∈ tasks →
      (t ∈ tasks.filter (admissible st) ↔
        (isTranscoded st.fs t.bookId t.seasonId t.episodeId = false ∧
         st.inProgress.contains (taskKey t) = false ∧
         st.queue.any (fun q => tripleEq q t) = false))) ∧
    (((enqueueTranscode st tasks priority).1.queue.map taskTriple).Nodup) := by
  refine ⟨enqueueTranscode_count_eq st tasks priority, ?_, ?_⟩
  · intro t htm
    rw [List.mem_filter]
    simp [htm, admissible, Bool.and_eq_true, Bool.not_eq_true', and_assoc]
  · have hsub : ((tasks.filter (admissible st)).map taskTriple).Sublist
        (tasks.map taskTriple) := (List.filter_sublist tasks).map taskTriple
    have hf : ((tasks.filter (admissible st)).map taskTriple).Nodup :=
      ht.sublist hsub
    have hdisj : ∀ a ∈ (tasks.filter (admissible st)).map taskTriple,
        a ∉ st.queue.map taskTriple := by
      intro a ha
      rcases List.mem_map.mp ha with ⟨t, htf, rfl⟩
      exact admissible_not_in_queue st t (List.of_mem_filter htf)
    rw [enqueueTranscode_queue_eq]
    cases priority
    · simp only [Bool.false_eq_true, if_false, List.map_append]
      rw [List.nodup_append]
      exact ⟨hq, hf, fun a haq haf => hdisj a haf haq⟩
    · simp only [if_true, List.map_append]
      rw [List.nodup_append]
      exact ⟨hf, hq, hdisj⟩

/-- Witness for C4 (amended): enqueuing the batch [A, B] into the [C]-queue
admits both and keeps all triples distinct. -/
theorem enqueueTranscode_admission_witness :
    (({ stEmpty with queue := [taskC] } : SchedState).queue.map
        taskTriple).Nodup ∧
    (([taskA, taskB].map taskTriple).Nodup) ∧
    (enqueueTranscode { stEmpty with queue := [taskC] } [taskA, taskB]
        false).2 = 2 ∧
    (((enqueueTranscode { stEmpty with queue := [taskC] } [taskA, taskB]
        false).1.queue.map taskTriple)).Nodup :=
  ⟨by decide, by decide,
    Eq.trans (enqueueTranscode_admission { stEmpty with queue := [taskC] }
      [taskA, taskB] false (by decide) (by decide)).1 (by decide),
    (enqueueTranscode_admission { stEmpty with queue := [taskC] }
      [taskA, taskB] false (by decide) (by decide)).2.2⟩

/-- C4 counterexample: one batch containing the same task twice is admitted
twice — the claimed invariant that the queue never holds two entries with
the same identity triple fails for duplicates within a single batch. -/
theorem enqueueTranscode_batch_duplicate :
    (enqueueTranscode stEmpty [taskA, taskA] false).1.queue = [taskA, taskA] ∧
    (enqueueTranscode stEmpty [taskA, taskA] false).2 = 2 ∧
    ¬ ((enqueueTranscode stEmpty [taskA, taskA] false).1.queue.map
        taskTriple).Nodup := by
  refine ⟨by decide, by decide, by decide⟩

end Audiobook
